import Mathlib

/-!
Verification development for the RAGfolio ingestion-and-retrieval pipeline.

Shallow embedding of the Python services in `apps/api/app`:
chunking (`services/chunking.py`), quota accounting (`services/quota.py`),
batch embedding (`services/embedding.py`), vector retrieval and prompt
assembly (`services/rag.py`), the document-processing task
(`tasks/document_processing.py`) and the document service
(`services/documents.py`).

Machine integers are modelled as `Int` (Python integers are unbounded),
strings as `String` or `List Char`, database rows as Lean structures and
row sets as lists.  External collaborators (storage, text extraction, the
embedding provider, the generative model, the database commit) are
modelled as explicit oracle inputs of type `Except String _`.
-/

namespace RAGfolio

/-! ### Python string primitives used by `ChunkingService.chunk_text` -/

/-- Python index normalisation for slicing: negative indices count from the
end, and indices are clamped into `[0, len]`. -/
def pyIdx (len : Nat) (i : Int) : Nat :=
  if i < 0 then (max 0 ((len : Int) + i)).toNat else min i.toNat len

/-- Python slice `s[a:b]` over a list of characters. -/
def pySlice (s : List Char) (a b : Int) : List Char :=
  (s.take (pyIdx s.length b)).drop (pyIdx s.length a)

/-- Python `str.rfind(sub)`: the greatest index at which `sub` occurs in
`s`, or `-1` when it does not occur. -/
def str_rfind (s sub : List Char) : Int :=
  match ((List.range (s.length + 1)).filter
      (fun i => List.isPrefixOf sub (s.drop i))).max? with
  | some i => (i : Int)
  | none => -1

/-- Python `str.strip()`: remove leading and trailing whitespace. -/
def pyStrip (s : List Char) : List Char :=
  ((s.dropWhile Char.isWhitespace).reverse.dropWhile Char.isWhitespace).reverse

/-! ### ChunkingService (`services/chunking.py`) -/

/-- The `TextChunk` dataclass. -/
structure TextChunk where
  text : List Char
  chunk_index : Nat
  char_start : Int
  char_end : Int
  page_number : Option Nat
deriving Repr, DecidableEq

/-- Constructor arguments of `ChunkingService`; defaults are the Python
defaults (`chunk_size=1000`, `overlap=200`, `separator="\n\n"`). -/
structure ChunkingService where
  chunk_size : Int := 1000
  overlap : Int := 200
  separator : List Char := ['\n', '\n']
deriving Repr, DecidableEq

/-- `chars_per_token = 4` in `chunk_text`. -/
def chars_per_token : Int := 4

/-- `char_chunk_size = self.chunk_size * chars_per_token`. -/
def char_chunk_size (svc : ChunkingService) : Int :=
  svc.chunk_size * chars_per_token

/-- `char_overlap = self.overlap * chars_per_token`. -/
def char_overlap (svc : ChunkingService) : Int :=
  svc.overlap * chars_per_token

/-- Result of one iteration of the `while` loop of `chunk_text`:
the stripped chunk text together with its `end` position when a non-empty
chunk is emitted, and the `start` value for the next iteration. -/
structure ChunkStepOut where
  emitted : Option (List Char × Int)
  next_start : Int
deriving Repr, DecidableEq

/-- One iteration of the `while start < text_length` loop of
`ChunkingService.chunk_text`, for the current `start` value:
take the window `text[start:end]` with `end = min(start + char_chunk_size,
text_length)`; if `end < text_length`, look for the last separator
occurrence and trim there when it lies past `char_chunk_size // 2`
(Python floor division); strip the window; then advance
`start = end - char_overlap` with the two guards
(`start >= end` and `start < 0` both reset `start` to `end`). -/
def chunkStep (svc : ChunkingService) (text : List Char) (start : Int) :
    ChunkStepOut :=
  let ccs := char_chunk_size svc
  let e0 : Int := min (start + ccs) (text.length : Int)
  let ct0 := pySlice text start e0
  let trimmed : List Char × Int :=
    if e0 < (text.length : Int) then
      let last_separator := str_rfind ct0 svc.separator
      if last_separator > Int.fdiv ccs 2 then
        let ct1 := pySlice ct0 0 (last_separator + (svc.separator.length : Int))
        (ct1, start + (ct1.length : Int))
      else (ct0, e0)
    else (ct0, e0)
  let stripped := pyStrip trimmed.1
  let s1 : Int := trimmed.2 - char_overlap svc
  let s2 : Int := if s1 ≥ trimmed.2 then trimmed.2 else s1
  let s3 : Int := if s2 < 0 then trimmed.2 else s2
  { emitted := if stripped = [] then none else some (stripped, trimmed.2),
    next_start := s3 }

/-- The `while` loop of `chunk_text`, with explicit fuel: the Python loop
has no structural termination measure (and indeed does not always
terminate), so the embedding returns `none` when the loop is still running
after `fuel` iterations and `some chunks` when it has exited. -/
def chunkLoop (svc : ChunkingService) (text : List Char)
    (page_number : Option Nat) :
    Nat → Int → Nat → List TextChunk → Option (List TextChunk)
  | 0, _, _, _ => none
  | fuel + 1, start, chunk_index, chunks =>
    if start < (text.length : Int) then
      let s := chunkStep svc text start
      let acc : List TextChunk × Nat :=
        match s.emitted with
        | some (t, e) =>
          (chunks ++ [{ text := t, chunk_index := chunk_index,
                        char_start := start, char_end := e,
                        page_number := page_number }], chunk_index + 1)
        | none => (chunks, chunk_index)
      if s.next_start ≥ (text.length : Int) then some acc.1
      else chunkLoop svc text page_number fuel s.next_start acc.2 acc.1
    else some chunks

/-- `ChunkingService.chunk_text(text, page_number)` with explicit fuel. -/
def chunk_text (svc : ChunkingService) (text : List Char)
    (page_number : Option Nat) (fuel : Nat) : Option (List TextChunk) :=
  chunkLoop svc text page_number fuel 0 0 []

/-! ### OrganizationQuota and QuotaService (`services/quota.py`,
table defaults from `db/tables.py`) -/

/-- The `organization_quotas` row, with the column defaults of
`db/tables.py`.  The optional daily API-call columns are not touched by
any operation modelled here and are omitted. -/
structure OrganizationQuota where
  max_documents : Int := 100
  max_storage_bytes : Int := 1073741824
  current_documents : Int := 0
  current_storage_bytes : Int := 0
  current_chunks : Int := 0
  max_chat_sessions : Int := 50
  current_chat_sessions : Int := 0
deriving Repr, DecidableEq

instance : Inhabited OrganizationQuota := ⟨{}⟩

/-- `QuotaService.check_document_quota`.  The reason string abstracts the
Python f-string `f"Document limit reached ({quota.max_documents})"` by
rendering the number with `toString`. -/
def check_document_quota (quota : OrganizationQuota)
    (additional_documents : Int) : Bool × Option String :=
  if quota.current_documents + additional_documents > quota.max_documents then
    (false, some ("Document limit reached (" ++ toString quota.max_documents ++ ")"))
  else (true, none)

/-- `QuotaService.check_storage_quota`.  The Python reason renders the
limit in gigabytes with float formatting; the model keeps the byte count
instead, which does not affect the checked condition. -/
def check_storage_quota (quota : OrganizationQuota)
    (additional_bytes : Int) : Bool × Option String :=
  if quota.current_storage_bytes + additional_bytes > quota.max_storage_bytes then
    (false, some ("Storage limit reached (" ++ toString quota.max_storage_bytes ++ ")"))
  else (true, none)

/-- `QuotaService.check_chat_session_quota`. -/
def check_chat_session_quota (quota : OrganizationQuota)
    (additional_sessions : Int) : Bool × Option String :=
  if quota.current_chat_sessions + additional_sessions > quota.max_chat_sessions then
    (false, some ("Chat session limit reached (" ++ toString quota.max_chat_sessions ++ ")"))
  else (true, none)

/-- `QuotaService.update_document_count`:
`quota.current_documents = max(0, quota.current_documents + delta)`. -/
def update_document_count (quota : OrganizationQuota) (delta : Int) :
    OrganizationQuota :=
  { quota with current_documents := max 0 (quota.current_documents + delta) }

/-- `QuotaService.update_storage_count`. -/
def update_storage_count (quota : OrganizationQuota) (delta_bytes : Int) :
    OrganizationQuota :=
  { quota with current_storage_bytes := max 0 (quota.current_storage_bytes + delta_bytes) }

/-- `QuotaService.update_chunk_count`. -/
def update_chunk_count (quota : OrganizationQuota) (delta : Int) :
    OrganizationQuota :=
  { quota with current_chunks := max 0 (quota.current_chunks + delta) }

/-- `QuotaService.update_chat_session_count`. -/
def update_chat_session_count (quota : OrganizationQuota) (delta : Int) :
    OrganizationQuota :=
  { quota with current_chat_sessions := max 0 (quota.current_chat_sessions + delta) }

/-! ### EmbeddingService (`services/embedding.py`) -/

/-- `EmbeddingService.__init__` key resolution:
`self.api_key = api_key or settings.openai_api_key`, followed by
`if not self.api_key: raise ValueError("OpenAI API key is required")`.
Python truthiness makes both `None` and the empty string falsy; the
settings default is the empty string.  `none` means the constructor
raises. -/
def resolveApiKey (api_key : Option String) (settings_openai_api_key : String) :
    Option String :=
  let resolved :=
    match api_key with
    | some k => if k = "" then settings_openai_api_key else k
    | none => settings_openai_api_key
  if resolved = "" then none else some resolved

/-- The `for i in range(0, len(texts), batch_size)` loop of
`generate_embeddings_batch`: each round passes `texts[i:i+batch_size]` to
the provider and extends the accumulated list, aborting on the first
provider error.  The loop variable is replaced by taking/dropping
`batch_size` elements; `fuel` bounds the number of rounds and
`texts.length` rounds always suffice when `batch_size ≥ 1`. -/
def embedBatchLoop (provider : List (List Char) → Except String (List (List ℚ)))
    (batch_size : Nat) : Nat → List (List Char) → Except String (List (List ℚ))
  | _, [] => .ok []
  | 0, _ :: _ => .ok []
  | fuel + 1, t :: ts =>
    match provider ((t :: ts).take batch_size) with
    | .error e => .error e
    | .ok batch_embeddings =>
      match embedBatchLoop provider batch_size fuel ((t :: ts).drop batch_size) with
      | .error e => .error e
      | .ok rest => .ok (batch_embeddings ++ rest)

/-- `EmbeddingService.generate_embeddings_batch(texts, batch_size)` with
the OpenAI client modelled as the `provider` oracle (one call per batch).
Any provider exception is re-raised as
`ValueError(f"Failed to generate embeddings: {e}")`. -/
def generate_embeddings_batch
    (provider : List (List Char) → Except String (List (List ℚ)))
    (texts : List (List Char)) (batch_size : Nat) :
    Except String (List (List ℚ)) :=
  match embedBatchLoop provider batch_size texts.length texts with
  | .error e => .error ("Failed to generate embeddings: " ++ e)
  | .ok v => .ok v

/-- The successive batches passed to the provider by `embedBatchLoop`. -/
def providerCalls (batch_size : Nat) : Nat → List (List Char) → List (List (List Char))
  | _, [] => []
  | 0, _ :: _ => []
  | fuel + 1, t :: ts =>
    (t :: ts).take batch_size :: providerCalls batch_size fuel ((t :: ts).drop batch_size)

/-- The consecutive groups of `batch_size` texts that
`generate_embeddings_batch` sends to the provider. -/
def batchGroups (batch_size : Nat) (texts : List (List Char)) :
    List (List (List Char)) :=
  providerCalls batch_size texts.length texts

/-! ### Data model rows (`db/tables.py`, `db/enums.py`) -/

/-- `DocumentStatusEnum`. -/
inductive DocumentStatus where
  | UPLOADED
  | PROCESSING
  | READY
  | FAILED
deriving Repr, DecidableEq

/-- The `documents` row (fields used by the modelled operations).
`deleted_at` carries no time information here: `some ()` means the
soft-delete timestamp is set. -/
structure Document where
  id : Nat
  organization_id : Nat
  file_name : String
  file_size : Int
  status : DocumentStatus
  error_message : Option String
  chunk_count : Int
  deleted_at : Option Unit
deriving Repr, DecidableEq

/-- The `document_chunks` row.  The pgvector embedding column is a list of
rationals (its numeric content only matters through the distance oracle;
its presence/absence drives the `embedding IS NOT NULL` filter). -/
structure DocumentChunk where
  id : Nat
  document_id : Nat
  chunk_index : Nat
  text_content : String
  embedding : Option (List ℚ)
  page_number : Option Nat
  char_start : Option Int
  char_end : Option Int
deriving Repr, DecidableEq

/-! ### RAGService.search_relevant_chunks (`services/rag.py`) -/

/-- Outcome of the `pg_extension` capability probe at the top of
`search_relevant_chunks`: the query reports the extension as enabled or
not, or the probe itself raises. -/
inductive PgProbe where
  | enabled
  | disabled
  | failed
deriving Repr, DecidableEq

/-- The SQL `JOIN documents d ON dc.document_id = d.id WHERE
d.organization_id = :org_id AND d.status = :status AND d.deleted_at IS
NULL AND dc.embedding IS NOT NULL` row condition for one chunk. -/
def chunkEligible (documents : List Document) (organization_id : Nat)
    (c : DocumentChunk) : Bool :=
  documents.any (fun d =>
    d.id == c.document_id && d.organization_id == organization_id &&
    d.status == DocumentStatus.READY && d.deleted_at == none) &&
  c.embedding != none

/-- `RAGService.search_relevant_chunks(query, limit, min_score)`.

Oracles: `probe` is the capability check, `api_key` the result of
`LLMKeyService.get_active_api_key` (after decryption), `query_embed` the
outcome of `generate_query_embedding`, and `dist c` the cosine distance
`dc.embedding <=> :query_embedding` the database computes for chunk id
`c`.  The SQL `ORDER BY` (ascending distance) with `LIMIT` is modelled by
an insertion sort on the eligible rows; the returned rows carry
`similarity = 1 - distance`.  The Python loop then keeps rows with
`similarity >= min_score`, re-fetching each chunk by id and skipping ids
that do not resolve. -/
def search_relevant_chunks (probe : PgProbe) (documents : List Document)
    (chunks : List DocumentChunk) (organization_id : Nat)
    (api_key : Option String) (query_embed : Except String Unit)
    (dist : Nat → ℚ) (limit : Nat) (min_score : ℚ) :
    Except String (List (DocumentChunk × ℚ)) :=
  match probe with
  | .disabled => .ok []
  | .failed => .ok []
  | .enabled =>
    match api_key with
    | none => .error "No active LLM API key configured for this organization"
    | some _ =>
      match query_embed with
      | .error e => .error e
      | .ok _ =>
        let eligible := chunks.filter (chunkEligible documents organization_id)
        let ordered :=
          (List.insertionSort (fun a b => dist a.id ≤ dist b.id) eligible).take limit
        let rows := ordered.map (fun c => (c.id, 1 - dist c.id))
        .ok (rows.filterMap (fun r =>
          if min_score ≤ r.2 then
            (chunks.find? (fun c => c.id == r.1)).map (fun c => (c, r.2))
          else none))

/-! ### RAGService.generate_rag_response prompt assembly
(`services/rag.py`) -/

/-- One entry of the `messages` list sent to the chat-completion API. -/
structure Message where
  role : String
  content : String
deriving Repr, DecidableEq

/-- Python `history[-10:]`. -/
def lastN (n : Nat) (l : List Message) : List Message :=
  l.drop (l.length - n)

/-- The fixed system instruction of `generate_rag_response`. -/
def rag_system_prompt : String :=
  "You are a helpful assistant that answers questions based on the provided context from documents.\nUse the context to answer the user\x27s question. If the context doesn\x27t contain enough information,\nsay so. Cite the document names when referencing specific information."

/-- The context block: each selected chunk prefixed by its source document
name (chunks whose document lookup fails are skipped), joined by
`"\n\n---\n\n"`. -/
def rag_context (documents : List Document)
    (chunks_with_scores : List (DocumentChunk × ℚ)) : String :=
  String.intercalate "\n\n---\n\n"
    (chunks_with_scores.filterMap (fun p =>
      (documents.find? (fun d => d.id == p.1.document_id)).map
        (fun document => "[" ++ document.file_name ++ "]\n" ++ p.1.text_content)))

/-- The `context_message` wrapper around the context block. -/
def rag_context_message (documents : List Document)
    (chunks_with_scores : List (DocumentChunk × ℚ)) : String :=
  "Context from documents:\n" ++ rag_context documents chunks_with_scores ++
    "\n\nBased on the above context, answer the user\x27s question:"

/-- The message-assembly portion of `generate_rag_response` (reached when
the retrieval result is non-empty): start from the system prompt, extend
with `conversation_history[-10:]` when a history is given, then append the
context message and the raw user query as user messages. -/
def generate_rag_messages (documents : List Document)
    (chunks_with_scores : List (DocumentChunk × ℚ))
    (conversation_history : List Message) (user_query : String) :
    List Message :=
  let messages := [Message.mk "system" rag_system_prompt]
  let messages :=
    if conversation_history ≠ [] then
      messages ++ lastN 10 conversation_history
    else messages
  let messages :=
    messages ++ [Message.mk "user" (rag_context_message documents chunks_with_scores)]
  messages ++ [Message.mk "user" user_query]

/-- Modelled from the spec: the message order stated in §4.6 — "a fixed
system instruction …, a context block …, up to the last 10 history turns,
then the raw user query".  Used only to compare against
`generate_rag_messages`. -/
def spec_rag_messages (documents : List Document)
    (chunks_with_scores : List (DocumentChunk × ℚ))
    (conversation_history : List Message) (user_query : String) :
    List Message :=
  [Message.mk "system" rag_system_prompt,
   Message.mk "user" (rag_context_message documents chunks_with_scores)] ++
    lastN 10 conversation_history ++ [Message.mk "user" user_query]

/-! ### Database state shared by the task and the document service -/

/-- The database state touched by the modelled operations: the
`documents` and `document_chunks` tables and the per-organization
`organization_quotas` rows (an association list keyed by organization
id).  `next_chunk_id` models the autoincrement primary key of
`document_chunks`. -/
structure DbState where
  documents : List Document
  chunks : List DocumentChunk
  quotas : List (Nat × OrganizationQuota)
  next_chunk_id : Nat
deriving Repr, DecidableEq

/-- Apply a field update to the document row with the given id. -/
def updateDocument (documents : List Document) (document_id : Nat)
    (f : Document → Document) : List Document :=
  documents.map (fun d => if d.id == document_id then f d else d)

/-- `QuotaService.get_or_create_quota` on the quota table: fetch the
organization's row, creating it with the column defaults when absent. -/
def get_or_create_quota (quotas : List (Nat × OrganizationQuota))
    (organization_id : Nat) :
    OrganizationQuota × List (Nat × OrganizationQuota) :=
  match quotas.find? (fun p => p.1 == organization_id) with
  | some p => (p.2, quotas)
  | none => ({}, quotas ++ [(organization_id, {})])

/-- Run one `QuotaService` update method against the quota table. -/
def applyQuotaUpdate (quotas : List (Nat × OrganizationQuota))
    (organization_id : Nat) (f : OrganizationQuota → OrganizationQuota) :
    List (Nat × OrganizationQuota) :=
  let created := (get_or_create_quota quotas organization_id).2
  created.map (fun p => if p.1 == organization_id then (p.1, f p.2) else p)

/-! ### process_document_task (`tasks/document_processing.py`) -/

/-- Structured result dictionaries returned by `process_document_task`. -/
inductive TaskResult where
  | notFound (document_id : Nat)
  | success (document_id : Nat) (chunks_created : Nat)
  | failure (document_id : Nat) (error : String)
deriving Repr, DecidableEq

/-- Oracles for one run of `process_document_task`:
`settings_openai_api_key` is the global settings value,
`extract_text` the combined outcome of storage resolution and
`TextExtractionService.extract_text`, `chunk_result` the list returned by
`ChunkingService.chunk_text` (the task is modelled for runs in which the
chunker returns), `embed_provider` the OpenAI embeddings client used by
`generate_embeddings_batch`, `embedding_batch_size` the settings value,
and `persist` the outcome of the commit that writes the chunk rows and
the `READY` update in one step.  Status-only commits (the `PROCESSING`
and `FAILED` updates) are modelled as succeeding. -/
structure TaskEnv where
  settings_openai_api_key : String
  extract_text : Except String (List Char)
  chunk_result : List TextChunk
  embed_provider : List (List Char) → Except String (List (List ℚ))
  embedding_batch_size : Nat
  persist : Except String Unit

/-- `FAILED` transition of the inner `except` handler: set the status and
the error message on the document row; counters, chunk rows and quotas
are not touched. -/
def failDocument (st : DbState) (document_id : Nat) (e : String) : DbState :=
  let documents := updateDocument st.documents document_id
    (fun d => { d with status := .FAILED, error_message := some e })
  { st with documents := documents }

/-- The chunk rows persisted on success:
`zip(chunks, embeddings)` mapped to `DocumentChunk` rows. -/
def buildChunkRows (document_id : Nat) (next_chunk_id : Nat)
    (chunks : List TextChunk) (embeddings : List (List ℚ)) :
    List DocumentChunk :=
  ((chunks.zip embeddings).enum).map (fun p =>
    { id := next_chunk_id + p.1,
      document_id := document_id,
      chunk_index := p.2.1.chunk_index,
      text_content := String.mk p.2.1.text,
      embedding := some p.2.2,
      page_number := p.2.1.page_number,
      char_start := some p.2.1.char_start,
      char_end := some p.2.1.char_end })

/-- `process_document_task(document_id, organization_id, api_key)`.

The returned `Except` is the task boundary: `.ok r` is the structured
result dictionary, `.error e` an exception escaping the task (its outer
`try` has only a `finally`, no handler).  Control flow from the source:
fetch the document by id (no result → `{"error": ...}`); set
`PROCESSING` and commit; construct the services — `EmbeddingService`
raises when neither the task argument nor the settings provide a key;
then the inner `try`: extract, chunk (zero chunks raises
`ValueError("No text chunks extracted from document")`), batch-embed,
persist rows and the `READY`/`chunk_count`/`processed_at`/`error_message`
update, then add `chunk_count` to the organization's chunk quota.  Any
exception in the inner `try` marks the document `FAILED` and returns a
failure dictionary. -/
def process_document_task (env : TaskEnv) (st : DbState)
    (document_id organization_id : Nat) (api_key : Option String) :
    DbState × Except String TaskResult :=
  match st.documents.find? (fun d => d.id == document_id) with
  | none => (st, .ok (.notFound document_id))
  | some document =>
    let documents := updateDocument st.documents document_id
      (fun d => { d with status := .PROCESSING })
    let st := { st with documents := documents }
    match resolveApiKey api_key env.settings_openai_api_key with
    | none => (st, .error "OpenAI API key is required")
    | some _ =>
      match env.extract_text with
      | .error e => (failDocument st document_id e, .ok (.failure document_id e))
      | .ok _text_content =>
        if env.chunk_result = [] then
          let e := "No text chunks extracted from document"
          (failDocument st document_id e, .ok (.failure document_id e))
        else
          match generate_embeddings_batch env.embed_provider
              (env.chunk_result.map (fun c => c.text)) env.embedding_batch_size with
          | .error e => (failDocument st document_id e, .ok (.failure document_id e))
          | .ok embeddings =>
            match env.persist with
            | .error e => (failDocument st document_id e, .ok (.failure document_id e))
            | .ok _ =>
              let chunk_objects :=
                buildChunkRows document.id st.next_chunk_id env.chunk_result embeddings
              let n := chunk_objects.length
              let documents := updateDocument st.documents document_id
                (fun d =>
                  { d with status := .READY, chunk_count := (n : Int), error_message := none })
              let st := { st with
                          chunks := st.chunks ++ chunk_objects,
                          next_chunk_id := st.next_chunk_id + n,
                          documents := documents }
              let quotas := applyQuotaUpdate st.quotas organization_id
                (fun q => update_chunk_count q (n : Int))
              let st := { st with quotas := quotas }
              (st, .ok (.success document_id n))

/-! ### DocumentService (`services/documents.py`) -/

/-- `DocumentService.get_document`: fetch by id, scoped to the
organization and excluding soft-deleted rows. -/
def get_document (documents : List Document)
    (document_id organization_id : Nat) : Option Document :=
  documents.find? (fun d =>
    d.id == document_id && d.organization_id == organization_id &&
    d.deleted_at == none)

/-- `DocumentService.delete_document`: soft-delete the document, then
decrement the document, storage and chunk quota counters (the chunk
delta is the counted number of chunk rows of the document).  File
storage and the audit log are external collaborators and carry no state
here; the task dispatch is not modelled. -/
def delete_document (st : DbState) (document_id organization_id : Nat) :
    Bool × DbState :=
  match get_document st.documents document_id organization_id with
  | none => (false, st)
  | some document =>
    let documents := updateDocument st.documents document_id
      (fun d => { d with deleted_at := some () })
    let st := { st with documents := documents }
    let quotas := applyQuotaUpdate st.quotas organization_id
      (fun q => update_document_count q (-1))
    let st := { st with quotas := quotas }
    let quotas := applyQuotaUpdate st.quotas organization_id
      (fun q => update_storage_count q (-document.file_size))
    let st := { st with quotas := quotas }
    let chunk_count : Int :=
      ((st.chunks.filter (fun c => c.document_id == document_id)).length : Int)
    let quotas := applyQuotaUpdate st.quotas organization_id
      (fun q => update_chunk_count q (-chunk_count))
    let st := { st with quotas := quotas }
    (true, st)

/-- `DocumentService.reprocess_document`: reset status, chunk count and
error message, delete the document's chunk rows, and redispatch the
processing task (the dispatch itself is not modelled).  No quota counter
is touched. -/
def reprocess_document (st : DbState) (document_id organization_id : Nat) :
    Option Document × DbState :=
  match get_document st.documents document_id organization_id with
  | none => (none, st)
  | some document =>
    let reset := fun (d : Document) =>
      { d with status := .UPLOADED, chunk_count := 0, error_message := none }
    let st := { st with
      documents := updateDocument st.documents document_id reset,
      chunks := st.chunks.filter (fun c => !(c.document_id == document_id)) }
    (some (reset document), st)

/-- The chunk total that `QuotaService.recalculate_usage` derives from
ground truth: the count of chunk rows joined to a non-deleted document of
the organization. -/
def recalc_chunk_total (documents : List Document)
    (chunks : List DocumentChunk) (organization_id : Nat) : Nat :=
  (chunks.filter (fun c => documents.any (fun d =>
    d.id == c.document_id && d.organization_id == organization_id &&
    d.deleted_at == none))).length

/-! ## Theorems -/

/-- C4: for every tenant quota record and every delta, each quota check
(documents, storage bytes, chat sessions) returns `allowed = false`
exactly when `current + delta > max` for the corresponding counter pair,
and every quota update sets `current` to `max(0, current + delta)`, so
`current` is never driven below 0. -/
theorem quota_check_and_update_spec (q : OrganizationQuota) (delta : Int) :
    ((check_document_quota q delta).1 = false ↔
      q.current_documents + delta > q.max_documents) ∧
    ((check_storage_quota q delta).1 = false ↔
      q.current_storage_bytes + delta > q.max_storage_bytes) ∧
    ((check_chat_session_quota q delta).1 = false ↔
      q.current_chat_sessions + delta > q.max_chat_sessions) ∧
    (update_document_count q delta).current_documents =
      max 0 (q.current_documents + delta) ∧
    (update_storage_count q delta).current_storage_bytes =
      max 0 (q.current_storage_bytes + delta) ∧
    (update_chunk_count q delta).current_chunks =
      max 0 (q.current_chunks + delta) ∧
    (update_chat_session_count q delta).current_chat_sessions =
      max 0 (q.current_chat_sessions + delta) ∧
    0 ≤ (update_document_count q delta).current_documents ∧
    0 ≤ (update_storage_count q delta).current_storage_bytes ∧
    0 ≤ (update_chunk_count q delta).current_chunks ∧
    0 ≤ (update_chat_session_count q delta).current_chat_sessions := by
  refine ⟨?_, ?_, ?_, rfl, rfl, rfl, rfl, ?_, ?_, ?_, ?_⟩
  · by_cases h : q.current_documents + delta > q.max_documents <;>
      simp [check_document_quota, h]
  · by_cases h : q.current_storage_bytes + delta > q.max_storage_bytes <;>
      simp [check_storage_quota, h]
  · by_cases h : q.current_chat_sessions + delta > q.max_chat_sessions <;>
      simp [check_chat_session_quota, h]
  · exact le_max_left 0 _
  · exact le_max_left 0 _
  · exact le_max_left 0 _
  · exact le_max_left 0 _

/-- C9: whenever the vector-search capability probe does not report the
extension as enabled — it reports it missing or the probe itself raises —
the retriever returns an empty result list and no error, whatever the
tenant data, credentials, query embedding outcome, limit and threshold
are. -/
theorem search_relevant_chunks_degraded (probe : PgProbe)
    (documents : List Document) (chunks : List DocumentChunk)
    (organization_id : Nat) (api_key : Option String)
    (query_embed : Except String Unit) (dist : Nat → ℚ) (limit : Nat)
    (min_score : ℚ) (h : probe ≠ PgProbe.enabled) :
    search_relevant_chunks probe documents chunks organization_id api_key
      query_embed dist limit min_score = Except.ok [] := by
  cases probe with
  | enabled => exact absurd rfl h
  | disabled => rfl
  | failed => rfl

/-- Witness for `search_relevant_chunks_degraded` at a concrete failed
probe with a populated store. -/
theorem search_relevant_chunks_degraded_witness :
    PgProbe.failed ≠ PgProbe.enabled ∧
    search_relevant_chunks PgProbe.failed
      [{ id := 1, organization_id := 1, file_name := "a.txt", file_size := 4,
         status := .READY, error_message := none, chunk_count := 1,
         deleted_at := none }]
      [{ id := 1, document_id := 1, chunk_index := 0, text_content := "alpha",
         embedding := some [1], page_number := none, char_start := none,
         char_end := none }]
      1 (some "key") (Except.ok ()) (fun _ => 0) 5 (7 / 10) = Except.ok [] :=
  ⟨by decide, search_relevant_chunks_degraded _ _ _ _ _ _ _ _ _ (by decide)⟩

set_option maxRecDepth 4000 in
/-- C3 counterexample: with one retrieved chunk and one history turn, the
assembled message sequence places the history turn before the context
block, not after it as the claim states — the second message is the
history turn, while the claimed order requires it to be the context
block. -/
theorem rag_message_order_counterexample :
    generate_rag_messages
      [{ id := 1, organization_id := 1, file_name := "a.txt", file_size := 4,
         status := .READY, error_message := none, chunk_count := 1,
         deleted_at := none }]
      [({ id := 1, document_id := 1, chunk_index := 0, text_content := "alpha",
          embedding := some [1], page_number := none, char_start := none,
          char_end := none }, 4 / 5)]
      [Message.mk "user" "earlier turn"] "what is alpha?" ≠
    spec_rag_messages
      [{ id := 1, organization_id := 1, file_name := "a.txt", file_size := 4,
         status := .READY, error_message := none, chunk_count := 1,
         deleted_at := none }]
      [({ id := 1, document_id := 1, chunk_index := 0, text_content := "alpha",
          embedding := some [1], page_number := none, char_start := none,
          char_end := none }, 4 / 5)]
      [Message.mk "user" "earlier turn"] "what is alpha?" := by
  decide

/-- C3 amended: for every retrieval result, document set, history and
query, the message sequence is assembled as: the fixed system
instruction, then up to the last 10 conversation-history turns, then the
context block (each selected chunk prefixed by its source document name)
as a user message, then the raw user query as the final message. -/
theorem generate_rag_messages_order (documents : List Document)
    (chunks_with_scores : List (DocumentChunk × ℚ))
    (conversation_history : List Message) (user_query : String)
    (hnonempty : chunks_with_scores ≠ []) :
    generate_rag_messages documents chunks_with_scores conversation_history
        user_query =
      [Message.mk "system" rag_system_prompt] ++
        lastN 10 conversation_history ++
        [Message.mk "user" (rag_context_message documents chunks_with_scores),
         Message.mk "user" user_query] := by
  by_cases h : conversation_history = [] <;>
    simp [generate_rag_messages, h, lastN]

/-- Witness for `generate_rag_messages_order` at a concrete non-empty
retrieval result. -/
theorem generate_rag_messages_order_witness :
    generate_rag_messages []
      [({ id := 1, document_id := 1, chunk_index := 0, text_content := "alpha",
          embedding := some [1], page_number := none, char_start := none,
          char_end := none }, 4 / 5)]
      [Message.mk "user" "earlier turn"] "what is alpha?" =
      [Message.mk "system" rag_system_prompt] ++
        lastN 10 [Message.mk "user" "earlier turn"] ++
        [Message.mk "user" (rag_context_message []
          [({ id := 1, document_id := 1, chunk_index := 0, text_content := "alpha",
              embedding := some [1], page_number := none, char_start := none,
              char_end := none }, 4 / 5)]),
         Message.mk "user" "what is alpha?"] :=
  generate_rag_messages_order _ _ _ _ (by decide)

/-! ### C8 helper lemmas -/

/-- `embedBatchLoop` evaluates the provider exactly on the batches listed
by `providerCalls`, folding their results left-to-right and aborting on
the first error. -/
theorem embedBatchLoop_eq_foldr
    (provider : List (List Char) → Except String (List (List ℚ)))
    (batch_size : Nat) :
    ∀ (fuel : Nat) (texts : List (List Char)),
      embedBatchLoop provider batch_size fuel texts =
        (providerCalls batch_size fuel texts).foldr
          (fun g acc =>
            match provider g, acc with
            | .error e, _ => .error e
            | .ok _, .error e => .error e
            | .ok v, .ok rest => .ok (v ++ rest))
          (Except.ok [])
  | 0, [] => rfl
  | 0, _ :: _ => rfl
  | fuel + 1, [] => rfl
  | fuel + 1, t :: ts => by
    rw [embedBatchLoop, providerCalls, List.foldr_cons,
      ← embedBatchLoop_eq_foldr provider batch_size fuel ((t :: ts).drop batch_size)]
    cases provider ((t :: ts).take batch_size) with
    | error e => rfl
    | ok v =>
      cases embedBatchLoop provider batch_size fuel ((t :: ts).drop batch_size) with
      | error e => rfl
      | ok rest => rfl

/-- The provider batches tile the input list. -/
theorem providerCalls_flatten (batch_size : Nat) (hbs : 1 ≤ batch_size) :
    ∀ (fuel : Nat) (texts : List (List Char)), texts.length ≤ fuel →
      (providerCalls batch_size fuel texts).flatten = texts
  | 0, [], _ => rfl
  | fuel + 1, [], _ => rfl
  | 0, t :: ts, h => absurd h (by simp)
  | fuel + 1, t :: ts, h => by
    simp only [List.length_cons] at h
    rw [providerCalls, List.flatten_cons,
      providerCalls_flatten batch_size hbs fuel ((t :: ts).drop batch_size)
        (by simp only [List.length_drop, List.length_cons]; omega),
      List.take_append_drop]

/-- Every provider batch is non-empty and holds at most `batch_size`
texts. -/
theorem providerCalls_bound (batch_size : Nat) (hbs : 1 ≤ batch_size) :
    ∀ (fuel : Nat) (texts : List (List Char)) (g : List (List Char)),
      g ∈ providerCalls batch_size fuel texts →
        g ≠ [] ∧ g.length ≤ batch_size
  | 0, [], g, h => absurd h (by simp [providerCalls])
  | fuel + 1, [], g, h => absurd h (by simp [providerCalls])
  | 0, _ :: _, g, h => absurd h (by simp [providerCalls])
  | fuel + 1, t :: ts, g, h => by
    rw [providerCalls, List.mem_cons] at h
    rcases h with h | h
    · subst h
      obtain ⟨b, rfl⟩ : ∃ b, batch_size = b + 1 := ⟨batch_size - 1, by omega⟩
      constructor
      · simp
      · simpa using List.length_take_le (b + 1) (t :: ts)
    · exact providerCalls_bound batch_size hbs fuel ((t :: ts).drop batch_size) g h

/-- With a provider that embeds each text of a batch in order, the batch
loop returns one embedding per input text, in input order. -/
theorem embedBatchLoop_map (f : List Char → List ℚ) (batch_size : Nat)
    (hbs : 1 ≤ batch_size) :
    ∀ (fuel : Nat) (texts : List (List Char)), texts.length ≤ fuel →
      embedBatchLoop (fun g => Except.ok (g.map f)) batch_size fuel texts =
        Except.ok (texts.map f)
  | 0, [], _ => rfl
  | fuel + 1, [], _ => rfl
  | 0, t :: ts, h => absurd h (by simp)
  | fuel + 1, t :: ts, h => by
    simp only [List.length_cons] at h
    rw [embedBatchLoop,
      embedBatchLoop_map f batch_size hbs fuel ((t :: ts).drop batch_size)
        (by simp only [List.length_drop, List.length_cons]; omega)]
    show Except.ok (((t :: ts).take batch_size).map f ++ ((t :: ts).drop batch_size).map f) = _
    rw [← List.map_append, List.take_append_drop]

/-- C8: with `batch_size ≥ 1`, `generate_embeddings_batch` issues its
provider calls over the consecutive groups `batchGroups`, which tile the
input in order with at most `batch_size` (and at least one) texts each;
and when the provider embeds each text of a batch in order, the returned
list has exactly one vector per input text, in input order. -/
theorem generate_embeddings_batch_spec
    (provider : List (List Char) → Except String (List (List ℚ)))
    (f : List Char → List ℚ) (texts : List (List Char)) (batch_size : Nat)
    (hbs : 1 ≤ batch_size) :
    (embedBatchLoop provider batch_size texts.length texts =
      (batchGroups batch_size texts).foldr
        (fun g acc =>
          match provider g, acc with
          | .error e, _ => .error e
          | .ok _, .error e => .error e
          | .ok v, .ok rest => .ok (v ++ rest))
        (Except.ok [])) ∧
    (batchGroups batch_size texts).flatten = texts ∧
    (∀ g ∈ batchGroups batch_size texts, g ≠ [] ∧ g.length ≤ batch_size) ∧
    generate_embeddings_batch (fun g => Except.ok (g.map f)) texts batch_size =
      Except.ok (texts.map f) := by
  refine ⟨embedBatchLoop_eq_foldr provider batch_size texts.length texts,
    providerCalls_flatten batch_size hbs texts.length texts le_rfl,
    fun g hg => providerCalls_bound batch_size hbs texts.length texts g hg,
    ?_⟩
  rw [generate_embeddings_batch,
    embedBatchLoop_map f batch_size hbs texts.length texts le_rfl]

/-- Witness for `generate_embeddings_batch_spec`: three texts with
`batch_size = 2` are embedded as two provider groups of sizes 2 and 1,
one vector per text in order. -/
theorem generate_embeddings_batch_spec_witness :
    batchGroups 2 [['a'], ['b'], ['c']] = [[['a'], ['b']], [['c']]] ∧
    generate_embeddings_batch (fun g => Except.ok (g.map (fun _ => [(1 : ℚ)])))
        [['a'], ['b'], ['c']] 2 =
      Except.ok [[(1 : ℚ)], [1], [1]] := by
  have h := generate_embeddings_batch_spec
    (fun g => Except.ok (g.map (fun _ => [(1 : ℚ)])))
    (fun _ => [(1 : ℚ)]) [['a'], ['b'], ['c']] 2 (by decide)
  exact ⟨by decide, h.2.2.2⟩

/-! ### C6 / C7: chunker behaviour -/

/-- A small chunker configuration (`chunk_size=2`, `overlap=1` tokens,
i.e. 8 and 4 characters) exhibiting the loop behaviour on short texts. -/
def chunkCfgSmall : ChunkingService := { chunk_size := 2, overlap := 1 }

/-- A ten-character input text. -/
def chunkTextSmall : List Char := ['a', 'b', 'c', 'd', 'e', 'f', 'g', 'h', 'i', 'j']

theorem chunkStepSmall_0 :
    chunkStep chunkCfgSmall chunkTextSmall 0 =
      { emitted := some (['a', 'b', 'c', 'd', 'e', 'f', 'g', 'h'], 8),
        next_start := 4 } := by decide

theorem chunkStepSmall_4 :
    chunkStep chunkCfgSmall chunkTextSmall 4 =
      { emitted := some (['e', 'f', 'g', 'h', 'i', 'j'], 10),
        next_start := 6 } := by decide

theorem chunkStepSmall_6 :
    chunkStep chunkCfgSmall chunkTextSmall 6 =
      { emitted := some (['g', 'h', 'i', 'j'], 10),
        next_start := 6 } := by decide

/-- From `start = 6` the loop reproduces `start = 6` forever: `end`
pins to the text length 10, and `start = end - char_overlap = 6` repeats,
emitting the same tail window on every iteration. -/
theorem chunkLoopSmall_stuck_6 :
    ∀ (fuel : Nat) (chunk_index : Nat) (chunks : List TextChunk),
      chunkLoop chunkCfgSmall chunkTextSmall none fuel 6 chunk_index chunks = none
  | 0, _, _ => rfl
  | fuel + 1, chunk_index, chunks => by
    rw [chunkLoop]
    rw [if_pos (by decide : (6 : Int) < (chunkTextSmall.length : Int))]
    rw [chunkStepSmall_6]
    rw [if_neg (by decide : ¬((6 : Int) ≥ (chunkTextSmall.length : Int)))]
    exact chunkLoopSmall_stuck_6 fuel _ _

theorem chunkLoopSmall_from_4 :
    ∀ (fuel : Nat) (chunk_index : Nat) (chunks : List TextChunk),
      chunkLoop chunkCfgSmall chunkTextSmall none fuel 4 chunk_index chunks = none
  | 0, _, _ => rfl
  | fuel + 1, chunk_index, chunks => by
    rw [chunkLoop]
    rw [if_pos (by decide : (4 : Int) < (chunkTextSmall.length : Int))]
    rw [chunkStepSmall_4]
    rw [if_neg (by decide : ¬((6 : Int) ≥ (chunkTextSmall.length : Int)))]
    exact chunkLoopSmall_stuck_6 fuel _ _

/-- C6: the chunker does not terminate on every input and configuration.
At `chunk_size=2`, `overlap=1` on the ten-character text
`"abcdefghij"`, the `while` loop of `chunk_text` runs forever (the
advance-to-`end` fallback never fires once `start` reaches
`end - char_overlap = 6 < text_length`): the fuelled embedding is still
running after every finite number of iterations.  The code comments
("Prevent infinite loop", "We've processed all text") document the
intended termination that the claim states. -/
theorem chunk_text_nonterminating :
    ∀ fuel : Nat, chunk_text chunkCfgSmall chunkTextSmall none fuel = none
  | 0 => rfl
  | fuel + 1 => by
    rw [chunk_text, chunkLoop]
    rw [if_pos (by decide : (0 : Int) < (chunkTextSmall.length : Int))]
    rw [chunkStepSmall_0]
    rw [if_neg (by decide : ¬((4 : Int) ≥ (chunkTextSmall.length : Int)))]
    exact chunkLoopSmall_from_4 fuel _ _

/-- C7 counterexample: a non-empty, one-character (whitespace) input —
far shorter than the default target size of 4000 characters — yields the
empty chunk sequence, not a single chunk: the stripped window is empty
and is dropped. -/
theorem chunk_text_short_counterexample :
    chunk_text {} [' '] none 5 = some [] ∧ ([' '] : List Char) ≠ [] := by
  constructor
  · decide
  · decide

/-- C7 amended: the chunker returns the empty sequence for empty input
(for any positive fuel); and for non-empty input strictly shorter than
the overlap in characters and no longer than the target size in
characters, the loop exits after its single iteration, emitting exactly
one chunk spanning the whole text when the stripped text is non-empty —
and no chunk at all when the input strips to whitespace. -/
theorem chunk_text_empty_and_short (svc : ChunkingService) (text : List Char)
    (page_number : Option Nat) (fuel : Nat) (hfuel : 1 ≤ fuel) :
    chunk_text svc [] page_number fuel = some [] ∧
    ((text.length : Int) < char_overlap svc →
     (text.length : Int) ≤ char_chunk_size svc →
     chunk_text svc text page_number fuel =
       some (if pyStrip text = [] then []
             else [{ text := pyStrip text, chunk_index := 0, char_start := 0,
                     char_end := (text.length : Int), page_number := page_number }])) := by
  obtain ⟨k, rfl⟩ : ∃ k, fuel = k + 1 := ⟨fuel - 1, by omega⟩
  constructor
  · rw [chunk_text, chunkLoop, if_neg (by simp)]
  · intro hover hsize
    rcases List.eq_nil_or_concat text with htext | ⟨_, _, hne⟩
    · subst htext
      rw [chunk_text, chunkLoop, if_neg (by simp)]
      simp [pyStrip]
    · have hlen : 0 < text.length := by
        subst hne; simp
      have hstep : chunkStep svc text 0 =
          { emitted := if pyStrip text = [] then none
                       else some (pyStrip text, (text.length : Int)),
            next_start := (text.length : Int) } := by
        have he0 : min ((0 : Int) + char_chunk_size svc) (text.length : Int) =
            (text.length : Int) := by omega
        have hslice : pySlice text 0 (text.length : Int) = text := by
          have h1 : pyIdx text.length (text.length : Int) = text.length := by
            rw [pyIdx, if_neg (by omega)]
            simp
          have h2 : pyIdx text.length 0 = 0 := by
            rw [pyIdx, if_neg (by omega)]
            simp
          simp [pySlice, h1, h2]
        rw [chunkStep]
        simp only [he0, hslice, lt_irrefl, if_false]
        have hs2 : ¬((text.length : Int) - char_overlap svc ≥ (text.length : Int)) := by
          omega
        have hs3 : (text.length : Int) - char_overlap svc < 0 := by omega
        simp only [ge_iff_le, hs2, if_false, hs3, if_true]
      rw [chunk_text, chunkLoop,
        if_pos (by exact_mod_cast hlen : (0 : Int) < (text.length : Int)), hstep]
      by_cases hstrip : pyStrip text = []
      · simp only [hstrip, if_true]
        rw [if_pos (le_refl ((text.length : Int)))]
      · simp only [hstrip, if_false]
        rw [if_pos (le_refl ((text.length : Int)))]
        simp

/-- Witness for `chunk_text_empty_and_short`: the two-character input
`"hi"` under the default configuration yields exactly one chunk. -/
theorem chunk_text_empty_and_short_witness :
    chunk_text ({} : ChunkingService) ['h', 'i'] none 1 = some
      [{ text := ['h', 'i'], chunk_index := 0, char_start := 0,
         char_end := 2, page_number := none }] := by
  have h := (chunk_text_empty_and_short ({} : ChunkingService) ['h', 'i'] none 1
    (le_refl 1)).2 (by decide) (by decide)
  exact h.trans (by decide)

/-! ### C5: retriever result properties -/

/-- `Pairwise` survives `filterMap` when the outputs inherit the
relation from their sources. -/
theorem pairwise_filterMap_of_pairwise {α β : Type} {R : α → α → Prop}
    {S : β → β → Prop} (f : α → Option β) {l : List α}
    (h : ∀ a b x y, R a b → f a = some x → f b = some y → S x y)
    (hp : l.Pairwise R) : (l.filterMap f).Pairwise S := by
  induction l with
  | nil => simp
  | cons a l ih =>
    rcases List.pairwise_cons.mp hp with ⟨ha, hl⟩
    cases hfa : f a with
    | none => simpa [List.filterMap_cons, hfa] using ih hl
    | some x =>
      rw [List.filterMap_cons_some hfa]
      refine List.pairwise_cons.mpr ⟨?_, ih hl⟩
      intro y hy
      rcases List.mem_filterMap.mp hy with ⟨b, hb, hfb⟩
      exact h a b x y (ha b hb) hfa hfb

/-- C5: whenever the retriever returns a result list (over a chunk table
with unique ids), every returned pair scores at least `min_score` and its
chunk passes the eligibility condition (a non-deleted `READY` document of
the tenant, and a stored embedding); the list is ordered by descending
similarity; and it has at most `limit` elements. -/
theorem search_relevant_chunks_spec (probe : PgProbe)
    (documents : List Document) (chunks : List DocumentChunk)
    (organization_id : Nat) (api_key : Option String)
    (query_embed : Except String Unit) (dist : Nat → ℚ) (limit : Nat)
    (min_score : ℚ) (res : List (DocumentChunk × ℚ))
    (hnodup : (chunks.map (fun c => c.id)).Nodup)
    (hrun : search_relevant_chunks probe documents chunks organization_id
      api_key query_embed dist limit min_score = Except.ok res) :
    (∀ p ∈ res, min_score ≤ p.2 ∧
      chunkEligible documents organization_id p.1 = true) ∧
    res.Pairwise (fun a b => b.2 ≤ a.2) ∧
    res.length ≤ limit := by
  cases probe with
  | disabled =>
    obtain rfl : ([] : List (DocumentChunk × ℚ)) = res := by
      simpa [search_relevant_chunks] using hrun
    simp
  | failed =>
    obtain rfl : ([] : List (DocumentChunk × ℚ)) = res := by
      simpa [search_relevant_chunks] using hrun
    simp
  | enabled =>
    cases api_key with
    | none => simp [search_relevant_chunks] at hrun
    | some key =>
      cases query_embed with
      | error e => simp [search_relevant_chunks] at hrun
      | ok _ =>
        rw [search_relevant_chunks] at hrun
        obtain rfl : res = _ := (Except.ok.inj hrun).symm
        constructor
        · intro p hp
          rcases List.mem_filterMap.mp hp with ⟨r, hr, hfr⟩
          by_cases hms : min_score ≤ r.2
          · rw [if_pos hms] at hfr
            rcases Option.map_eq_some'.mp hfr with ⟨c, hfind, hpc⟩
            rcases List.mem_map.mp hr with ⟨c₀, hc₀, hrc⟩
            have hc₀sorted : c₀ ∈ List.insertionSort
                (fun a b => dist a.id ≤ dist b.id)
                (chunks.filter (chunkEligible documents organization_id)) :=
              List.mem_of_mem_take hc₀
            have hc₀elig : c₀ ∈ chunks.filter (chunkEligible documents organization_id) :=
              (List.perm_insertionSort _ _).subset hc₀sorted
            rcases List.mem_filter.mp hc₀elig with ⟨hc₀chunks, hc₀pred⟩
            have hcchunks : c ∈ chunks := List.mem_of_find?_eq_some hfind
            have hcid : c.id = r.1 := by
              simpa using List.find?_some hfind
            have hr1 : r.1 = c₀.id := by rw [← hrc]
            have hceq : c = c₀ :=
              List.inj_on_of_nodup_map hnodup hcchunks hc₀chunks
                (by rw [hcid, hr1])
            have hp2 : p.2 = r.2 := by rw [← hpc]
            refine ⟨by rw [hp2]; exact hms, ?_⟩
            have hp1 : p.1 = c := by rw [← hpc]
            rw [hp1, hceq]
            exact hc₀pred
          · rw [if_neg hms] at hfr
            exact absurd hfr (by simp)
        constructor
        · haveI : IsTotal DocumentChunk (fun a b => dist a.id ≤ dist b.id) :=
            ⟨fun a b => le_total _ _⟩
          haveI : IsTrans DocumentChunk (fun a b => dist a.id ≤ dist b.id) :=
            ⟨fun _ _ _ h1 h2 => le_trans h1 h2⟩
          have h1 : (List.insertionSort (fun a b => dist a.id ≤ dist b.id)
              (chunks.filter (chunkEligible documents organization_id))).Pairwise
              (fun a b => dist a.id ≤ dist b.id) :=
            List.sorted_insertionSort _ _
          have h2 := h1.sublist (List.take_sublist limit _)
          have h3 := h2.map (fun c => (c.id, 1 - dist c.id))
            (S := fun (x y : Nat × ℚ) => y.2 ≤ x.2)
            (fun a b hab => by simpa using sub_le_sub_left hab 1)
          refine pairwise_filterMap_of_pairwise _ ?_ h3
          intro a b x y hab hfa hfb
          by_cases hma : min_score ≤ a.2
          · by_cases hmb : min_score ≤ b.2
            · rw [if_pos hma] at hfa
              rw [if_pos hmb] at hfb
              rcases Option.map_eq_some'.mp hfa with ⟨ca, _, hca⟩
              rcases Option.map_eq_some'.mp hfb with ⟨cb, _, hcb⟩
              have hxa : x.2 = a.2 := by rw [← hca]
              have hyb : y.2 = b.2 := by rw [← hcb]
              rw [hxa, hyb]
              exact hab
            · rw [if_neg hmb] at hfb
              exact absurd hfb (by simp)
          · rw [if_neg hma] at hfa
            exact absurd hfa (by simp)
        · refine le_trans (List.length_filterMap_le _ _) ?_
          rw [List.length_map]
          exact le_trans (List.length_take_le _ _) le_rfl

/-- Witness for `search_relevant_chunks_spec`: two stored chunks with
similarities 0.82 and 0.65 against `min_score = 0.7`, `limit = 5` return
exactly the single 0.82 result. -/
theorem search_relevant_chunks_spec_witness :
    (∀ p ∈ [({ id := 1, document_id := 1, chunk_index := 0,
               text_content := "alpha", embedding := some [1],
               page_number := none, char_start := none,
               char_end := none : DocumentChunk }, (41 : ℚ) / 50)],
      (7 : ℚ) / 10 ≤ p.2 ∧
      chunkEligible
        [{ id := 1, organization_id := 1, file_name := "a.txt", file_size := 4,
           status := .READY, error_message := none, chunk_count := 2,
           deleted_at := none }] 1 p.1 = true) ∧
    List.Pairwise (fun (a b : DocumentChunk × ℚ) => b.2 ≤ a.2)
      [({ id := 1, document_id := 1, chunk_index := 0,
          text_content := "alpha", embedding := some [1],
          page_number := none, char_start := none,
          char_end := none : DocumentChunk }, (41 : ℚ) / 50)] ∧
    ([({ id := 1, document_id := 1, chunk_index := 0,
         text_content := "alpha", embedding := some [1],
         page_number := none, char_start := none,
         char_end := none : DocumentChunk }, (41 : ℚ) / 50)]).length ≤ 5 :=
  search_relevant_chunks_spec PgProbe.enabled
    [{ id := 1, organization_id := 1, file_name := "a.txt", file_size := 4,
       status := .READY, error_message := none, chunk_count := 2,
       deleted_at := none }]
    [{ id := 1, document_id := 1, chunk_index := 0, text_content := "alpha",
       embedding := some [1], page_number := none, char_start := none,
       char_end := none },
     { id := 2, document_id := 1, chunk_index := 1, text_content := "beta",
       embedding := some [1], page_number := none, char_start := none,
       char_end := none }]
    1 (some "key") (Except.ok ())
    (fun cid => if cid == 1 then (9 : ℚ) / 50 else (7 : ℚ) / 20) 5 ((7 : ℚ) / 10)
    _ (by decide)
    (by
      rw [search_relevant_chunks]
      norm_num [chunkEligible, List.insertionSort, List.orderedInsert, List.filter,
        List.filterMap, List.find?, List.take])

/-! ### C1 / C2: the task boundary -/

/-- `find?` through a conditional map: updating exactly the rows matched
by the predicate relocates `find?` through the update, provided the
update preserves the predicate. -/
theorem find?_conditional_map {α : Type} (l : List α) (p : α → Bool)
    (g : α → α) (hg : ∀ a, p (g a) = p a) :
    (l.map (fun a => if p a then g a else a)).find? p = (l.find? p).map g := by
  induction l with
  | nil => rfl
  | cons a l ih =>
    by_cases h : p a = true
    · rw [List.map_cons, if_pos h, List.find?_cons_of_pos _ (by rw [hg]; exact h),
        List.find?_cons_of_pos _ h, Option.map_some']
    · rw [List.map_cons, if_neg h, List.find?_cons_of_neg _ h,
        List.find?_cons_of_neg _ h, ih]

/-- A database state and task environment on which the missing-credential
path is taken: no task-level key and an empty settings key. -/
def taskStExample : DbState :=
  { documents := [{ id := 1, organization_id := 1, file_name := "a.txt",
                    file_size := 2, status := .UPLOADED, error_message := none,
                    chunk_count := 0, deleted_at := none }],
    chunks := [], quotas := [], next_chunk_id := 0 }

/-- Task environment with no configured settings credential and otherwise
healthy oracles. -/
def taskEnvNoKey : TaskEnv :=
  { settings_openai_api_key := "",
    extract_text := .ok ['h', 'i'],
    chunk_result := [{ text := ['h', 'i'], chunk_index := 0, char_start := 0,
                       char_end := 2, page_number := none }],
    embed_provider := fun _ => .ok [],
    embedding_batch_size := 100,
    persist := .ok () }

/-- C1 counterexample: dispatching the task with no task-level API key and
an empty settings key raises `ValueError("OpenAI API key is required")`
past the task boundary (`EmbeddingService` is constructed outside the
inner `try`, and the outer `try` has only a `finally`), instead of
returning a result descriptor; the document is left `PROCESSING` with no
`error_message` — the failure is not captured into the Document record. -/
theorem process_document_task_counterexample :
    (process_document_task taskEnvNoKey taskStExample 1 1 none).2 =
      Except.error "OpenAI API key is required" ∧
    (process_document_task taskEnvNoKey taskStExample 1 1 none).1.documents =
      [{ id := 1, organization_id := 1, file_name := "a.txt", file_size := 2,
         status := .PROCESSING, error_message := none, chunk_count := 0,
         deleted_at := none }] :=
  ⟨rfl, rfl⟩

/-- C1 amended: whenever an embedding credential resolves (a task-level
key or a non-empty settings key), the task returns a structured result
descriptor — not-found, success, or failure — for every outcome of
extraction, chunking, embedding and persistence; but when no credential
resolves and the document exists, the constructor `ValueError` escapes
the task boundary (see `process_document_task_counterexample`). -/
theorem process_document_task_no_raise (env : TaskEnv) (st : DbState)
    (document_id organization_id : Nat) (api_key : Option String)
    (hkey : resolveApiKey api_key env.settings_openai_api_key ≠ none) :
    ∃ r, (process_document_task env st document_id organization_id api_key).2 =
      Except.ok r := by
  rw [process_document_task]
  cases hfind : st.documents.find? (fun d => d.id == document_id) with
  | none => exact ⟨.notFound document_id, rfl⟩
  | some document =>
    cases hres : resolveApiKey api_key env.settings_openai_api_key with
    | none => exact absurd hres hkey
    | some k =>
      cases hext : env.extract_text with
      | error m => exact ⟨.failure document_id m, rfl⟩
      | ok txt =>
        cases hcr : env.chunk_result with
        | nil =>
          exact ⟨.failure document_id "No text chunks extracted from document", rfl⟩
        | cons c cs =>
          cases hemb : generate_embeddings_batch env.embed_provider
              ((c :: cs).map (fun x => x.text)) env.embedding_batch_size with
          | error m => exact ⟨.failure document_id m, rfl⟩
          | ok embeddings =>
            cases hper : env.persist with
            | error m => exact ⟨.failure document_id m, rfl⟩
            | ok _ => exact ⟨_, rfl⟩

/-- Witness for `process_document_task_no_raise`: with a settings key
configured, a run whose extraction fails still returns a structured
(failure) descriptor. -/
theorem process_document_task_no_raise_witness :
    ∃ r, (process_document_task
      { settings_openai_api_key := "sk-test",
        extract_text := .error "corrupt file",
        chunk_result := [],
        embed_provider := fun _ => .ok [],
        embedding_batch_size := 100,
        persist := .ok () } taskStExample 1 1 none).2 = Except.ok r :=
  process_document_task_no_raise _ taskStExample 1 1 none (by decide)

/-- `find?` by id through `updateDocument` for an id-preserving update. -/
theorem find?_updateDocument (documents : List Document) (document_id : Nat)
    (f : Document → Document) (hf : ∀ d, (f d).id = d.id) :
    (updateDocument documents document_id f).find? (fun d => d.id == document_id) =
      (documents.find? (fun d => d.id == document_id)).map f :=
  find?_conditional_map documents (fun d => d.id == document_id) f
    (fun d => by
      show ((f d).id == document_id) = (d.id == document_id)
      rw [hf])

/-- The messages `generate_embeddings_batch` re-raises are never empty. -/
theorem embed_failure_message_ne_empty (e : String) :
    "Failed to generate embeddings: " ++ e ≠ "" := by
  intro h
  have h1 := congrArg String.length h
  rw [String.length_append] at h1
  simp at h1
  exact absurd h1.1 (by decide)

/-- The `FAILED` transition leaves chunk rows and quotas alone and sets
exactly the status and error message on the fetched document. -/
theorem failDocument_state (st : DbState) (document_id : Nat)
    (document : Document) (m : String)
    (hfind : st.documents.find? (fun d => d.id == document_id) = some document) :
    (failDocument st document_id m).documents.find?
        (fun d => d.id == document_id) =
      some { document with status := .FAILED, error_message := some m } ∧
    (failDocument st document_id m).chunks = st.chunks ∧
    (failDocument st document_id m).quotas = st.quotas := by
  refine ⟨?_, rfl, rfl⟩
  show (updateDocument st.documents document_id
      (fun d => { d with status := .FAILED, error_message := some m })).find? _ = _
  rw [find?_updateDocument st.documents document_id
    (fun d => { d with status := .FAILED, error_message := some m })
    (fun d => rfl), hfind, Option.map_some']

/-- C2: whenever the task returns a structured failure result (for a
document with zero entry chunk count and no pre-existing chunk rows, and
oracles raising non-empty messages), the document ends `FAILED` with that
non-empty message in `error_message` and `chunk_count = 0`, zero chunk
rows exist for the document, and the quota table is unchanged. -/
theorem process_document_task_failure_state (env : TaskEnv) (st : DbState)
    (document_id organization_id : Nat) (api_key : Option String)
    (st' : DbState) (e : String)
    (hcc : ∀ d ∈ st.documents, d.id = document_id → d.chunk_count = 0)
    (hrows : st.chunks.filter (fun c => c.document_id == document_id) = [])
    (hex : ∀ m, env.extract_text = Except.error m → m ≠ "")
    (hpe : ∀ m, env.persist = Except.error m → m ≠ "")
    (hrun : process_document_task env st document_id organization_id api_key =
      (st', Except.ok (TaskResult.failure document_id e))) :
    e ≠ "" ∧
    (∃ d', st'.documents.find? (fun d => d.id == document_id) = some d' ∧
      d'.status = DocumentStatus.FAILED ∧ d'.error_message = some e ∧
      d'.chunk_count = 0) ∧
    st'.chunks.filter (fun c => c.document_id == document_id) = [] ∧
    st'.quotas = st.quotas := by
  rw [process_document_task] at hrun
  cases hfind : st.documents.find? (fun d => d.id == document_id) with
  | none =>
    rw [hfind] at hrun
    simp at hrun
  | some document =>
    rw [hfind] at hrun
    have hdid : document.id = document_id := by
      simpa using List.find?_some hfind
    have hcc0 : document.chunk_count = 0 :=
      hcc document (List.mem_of_find?_eq_some hfind) hdid
    have hfindP : ({ st with
        documents := updateDocument st.documents document_id
          (fun d => { d with status := .PROCESSING }) } : DbState).documents.find?
          (fun d => d.id == document_id) =
        some { document with status := .PROCESSING } := by
      show (updateDocument st.documents document_id
          (fun d => { d with status := .PROCESSING })).find? _ = _
      rw [find?_updateDocument st.documents document_id
        (fun d => { d with status := .PROCESSING }) (fun d => rfl), hfind,
        Option.map_some']
    cases hres : resolveApiKey api_key env.settings_openai_api_key with
    | none =>
      rw [hres] at hrun
      simp at hrun
    | some k =>
      rw [hres] at hrun
      cases hext : env.extract_text with
      | error m =>
        rw [hext] at hrun
        simp only [Prod.mk.injEq, Except.ok.injEq, TaskResult.failure.injEq,
          true_and] at hrun
        obtain ⟨hst, he⟩ := hrun
        subst he
        subst hst
        obtain ⟨h1, h2, h3⟩ := failDocument_state _ document_id _ _ hfindP
        refine ⟨hex _ hext, ⟨_, h1, rfl, rfl, hcc0⟩, ?_, h3⟩
        rw [h2]
        exact hrows
      | ok txt =>
        rw [hext] at hrun
        cases hcr : env.chunk_result with
        | nil =>
          rw [hcr] at hrun
          simp only [↓reduceIte] at hrun
          simp only [Prod.mk.injEq, Except.ok.injEq, TaskResult.failure.injEq,
            true_and] at hrun
          obtain ⟨hst, he⟩ := hrun
          subst he
          subst hst
          obtain ⟨h1, h2, h3⟩ := failDocument_state _ document_id _ _ hfindP
          refine ⟨by decide, ⟨_, h1, rfl, rfl, hcc0⟩, ?_, h3⟩
          rw [h2]
          exact hrows
        | cons c cs =>
          rw [hcr] at hrun
          simp only [↓reduceIte] at hrun
          cases hloop : embedBatchLoop env.embed_provider env.embedding_batch_size
              (((c :: cs).map (fun x => x.text)).length)
              ((c :: cs).map (fun x => x.text)) with
          | error e0 =>
            rw [generate_embeddings_batch, hloop] at hrun
            simp only [Prod.mk.injEq, Except.ok.injEq, TaskResult.failure.injEq,
              true_and] at hrun
            rw [if_neg (List.cons_ne_nil c cs)] at hrun
            simp only [Prod.mk.injEq, Except.ok.injEq, TaskResult.failure.injEq,
              true_and] at hrun
            obtain ⟨hst, he⟩ := hrun
            subst he
            subst hst
            obtain ⟨h1, h2, h3⟩ := failDocument_state _ document_id _ _ hfindP
            refine ⟨embed_failure_message_ne_empty e0, ⟨_, h1, rfl, rfl, hcc0⟩,
              ?_, h3⟩
            rw [h2]
            exact hrows
          | ok embeddings =>
            rw [generate_embeddings_batch, hloop] at hrun
            cases hper : env.persist with
            | error m =>
              rw [hper] at hrun
              simp only [Prod.mk.injEq, Except.ok.injEq, TaskResult.failure.injEq,
                true_and] at hrun
              rw [if_neg (List.cons_ne_nil c cs)] at hrun
              simp only [Prod.mk.injEq, Except.ok.injEq, TaskResult.failure.injEq,
                true_and] at hrun
              obtain ⟨hst, he⟩ := hrun
              subst he
              subst hst
              obtain ⟨h1, h2, h3⟩ := failDocument_state _ document_id _ _ hfindP
              refine ⟨hpe _ hper, ⟨_, h1, rfl, rfl, hcc0⟩, ?_, h3⟩
              rw [h2]
              exact hrows
            | ok u =>
              rw [hper] at hrun
              simp only [↓reduceIte] at hrun
              rw [if_neg (List.cons_ne_nil c cs)] at hrun
              simp at hrun

/-- Task environment whose extraction raises `"corrupt file"` and whose
settings hold a credential. -/
def taskEnvExtractFail : TaskEnv :=
  { settings_openai_api_key := "sk-test",
    extract_text := .error "corrupt file",
    chunk_result := [],
    embed_provider := fun _ => .ok [],
    embedding_batch_size := 100,
    persist := .ok () }

/-- Witness for `process_document_task_failure_state`: a run whose
extraction raises `"corrupt file"` marks the document `FAILED` with that
message, keeps `chunk_count = 0` with no chunk rows, and leaves the
quota table untouched. -/
theorem process_document_task_failure_state_witness :
    ("corrupt file" : String) ≠ "" ∧
    (∃ d', ((process_document_task taskEnvExtractFail taskStExample 1 1
          none).1).documents.find? (fun d => d.id == 1) = some d' ∧
      d'.status = DocumentStatus.FAILED ∧
      d'.error_message = some "corrupt file" ∧ d'.chunk_count = 0) ∧
    ((process_document_task taskEnvExtractFail taskStExample 1 1
        none).1).chunks.filter (fun c => c.document_id == 1) = [] ∧
    ((process_document_task taskEnvExtractFail taskStExample 1 1
        none).1).quotas = taskStExample.quotas :=
  process_document_task_failure_state taskEnvExtractFail taskStExample 1 1 none
    _ "corrupt file" (by decide) rfl
    (fun m hm => by rw [← Except.error.inj hm]; decide)
    (fun m hm => Except.noConfusion hm)
    rfl

/-! ### C10: reprocess leaves quota counters untouched -/

/-- `find?` by organization id through one quota update, when the
organization already has a quota row. -/
theorem find?_applyQuotaUpdate (quotas : List (Nat × OrganizationQuota))
    (organization_id : Nat) (f : OrganizationQuota → OrganizationQuota)
    (q : OrganizationQuota)
    (hq : quotas.find? (fun p => p.1 == organization_id) =
      some (organization_id, q)) :
    (applyQuotaUpdate quotas organization_id f).find?
        (fun p => p.1 == organization_id) = some (organization_id, f q) := by
  rw [applyQuotaUpdate, get_or_create_quota, hq]
  have h := find?_conditional_map quotas (fun p => p.1 == organization_id)
    (fun p => (p.1, f p.2)) (fun p => rfl)
  rw [show (fun (p : Nat × OrganizationQuota) =>
      if p.1 == organization_id then (p.1, f p.2) else p) =
      (fun p => if (fun (x : Nat × OrganizationQuota) => x.1 == organization_id) p
        then (fun (x : Nat × OrganizationQuota) => (x.1, f x.2)) p else p)
    from rfl, h, hq, Option.map_some']

/-- Splitting a filtered count along a subordinate condition: when every
row satisfying `Q` also satisfies `P`, the `P`-count splits into the
`P`-count of the `Q`-removed list plus the `Q`-count. -/
theorem filter_length_split (chunks : List DocumentChunk)
    (P Q : DocumentChunk → Bool)
    (h : ∀ c ∈ chunks, Q c = true → P c = true) :
    (chunks.filter P).length =
      ((chunks.filter (fun c => !(Q c))).filter P).length +
        (chunks.filter Q).length := by
  induction chunks with
  | nil => rfl
  | cons a l ih =>
    have hl := ih (fun c hc hQ => h c (List.mem_cons_of_mem _ hc) hQ)
    by_cases hQ : Q a = true
    · have hP : P a = true := h a (List.mem_cons_self a l) hQ
      simp [List.filter_cons, hQ, hP, hl]
      omega
    · have hQ' : Q a = false := by
        cases hqa : Q a
        · rfl
        · exact absurd hqa hQ
      by_cases hP : P a = true
      · simp [List.filter_cons, hQ', hP, hl]
        omega
      · have hP' : P a = false := by
          cases hpa : P a
          · rfl
          · exact absurd hpa hP
        simp [List.filter_cons, hQ', hP', hl]

/-- A row-predicate that an id-targeted update preserves is invariant
under `updateDocument`. -/
theorem any_updateDocument (documents : List Document) (document_id : Nat)
    (f : Document → Document) (pred : Document → Bool)
    (hf : ∀ d, pred (f d) = pred d) :
    (updateDocument documents document_id f).any pred = documents.any pred := by
  rw [updateDocument, List.any_map]
  congr 1
  funext a
  by_cases h : (a.id == document_id) = true
  · show pred (if a.id == document_id then f a else a) = pred a
    rw [if_pos h, hf]
  · show pred (if a.id == document_id then f a else a) = pred a
    rw [if_neg h]

/-- C10: reprocessing a document with `n` existing chunk rows deletes
those rows and resets status, chunk count and error message, but leaves
the whole quota table — in particular the chunk counter — unchanged,
unlike `delete_document` which decrements the chunk counter by `n`; so
when the chunk counter was in sync with the stored ground truth before
the reprocess, it exceeds the recalculated ground truth by exactly `n`
afterwards. -/
theorem reprocess_document_quota_drift (st : DbState)
    (document_id organization_id : Nat) (d : Document) (q : OrganizationQuota)
    (n : Nat)
    (hget : get_document st.documents document_id organization_id = some d)
    (hn : n = (st.chunks.filter (fun c => c.document_id == document_id)).length)
    (hq : st.quotas.find? (fun p => p.1 == organization_id) =
      some (organization_id, q))
    (hsync : q.current_chunks =
      (recalc_chunk_total st.documents st.chunks organization_id : Int)) :
    (reprocess_document st document_id organization_id).2.quotas = st.quotas ∧
    ((reprocess_document st document_id organization_id).2.chunks.filter
      (fun c => c.document_id == document_id)) = [] ∧
    (reprocess_document st document_id organization_id).1 =
      some { d with status := .UPLOADED, chunk_count := 0,
                    error_message := none } ∧
    q.current_chunks =
      (recalc_chunk_total
        (reprocess_document st document_id organization_id).2.documents
        (reprocess_document st document_id organization_id).2.chunks
        organization_id : Int) + (n : Int) ∧
    (∃ qd, ((delete_document st document_id organization_id).2.quotas.find?
        (fun p => p.1 == organization_id)) = some (organization_id, qd) ∧
      qd.current_chunks = max 0 (q.current_chunks - (n : Int))) := by
  have hdmem : d ∈ st.documents := List.mem_of_find?_eq_some hget
  have hdpred := List.find?_some hget
  have hdid : d.id = document_id := by
    simp only [Bool.and_eq_true, beq_iff_eq] at hdpred
    exact hdpred.1.1
  have hdorg : d.organization_id = organization_id := by
    simp only [Bool.and_eq_true, beq_iff_eq] at hdpred
    exact hdpred.1.2
  have hddel : d.deleted_at = none := by
    simp only [Bool.and_eq_true, beq_iff_eq] at hdpred
    exact hdpred.2
  have hre : reprocess_document st document_id organization_id =
      (some { d with status := .UPLOADED, chunk_count := 0,
                     error_message := none },
       { st with
          documents := updateDocument st.documents document_id
            (fun x => { x with status := .UPLOADED, chunk_count := 0,
                               error_message := none }),
          chunks := st.chunks.filter
            (fun c => !(c.document_id == document_id)) }) := by
    rw [reprocess_document, hget]
  have hQP : ∀ c ∈ st.chunks, (c.document_id == document_id) = true →
      (st.documents.any (fun dd => dd.id == c.document_id &&
        dd.organization_id == organization_id && dd.deleted_at == none)) = true := by
    intro c _ hc
    refine List.any_eq_true.mpr ⟨d, hdmem, ?_⟩
    have hc' : c.document_id = document_id := by simpa using hc
    simp [hdid, hdorg, hddel, hc']
  have hany : ∀ c : DocumentChunk,
      ((updateDocument st.documents document_id
        (fun x => { x with status := .UPLOADED, chunk_count := 0,
                           error_message := none })).any
        (fun dd => dd.id == c.document_id &&
          dd.organization_id == organization_id && dd.deleted_at == none)) =
      (st.documents.any (fun dd => dd.id == c.document_id &&
        dd.organization_id == organization_id && dd.deleted_at == none)) :=
    fun c => any_updateDocument _ _ _ _ (fun dd => rfl)
  refine ⟨by rw [hre], ?_, by rw [hre], ?_, ?_⟩
  · rw [hre]
    show ((st.chunks.filter
      (fun c => !(c.document_id == document_id))).filter
      (fun c => c.document_id == document_id)) = []
    rw [List.filter_filter]
    refine List.filter_eq_nil_iff.mpr ?_
    intro c _
    simp
  · rw [hre]
    show q.current_chunks =
      ((recalc_chunk_total
        (updateDocument st.documents document_id
          (fun x => { x with status := .UPLOADED, chunk_count := 0,
                             error_message := none }))
        (st.chunks.filter (fun c => !(c.document_id == document_id)))
        organization_id : Nat) : Int) + (n : Int)
    rw [recalc_chunk_total, List.filter_congr (fun c _ => hany c)]
    have hsplit := filter_length_split st.chunks
      (fun c => st.documents.any (fun dd => dd.id == c.document_id &&
        dd.organization_id == organization_id && dd.deleted_at == none))
      (fun c => c.document_id == document_id) hQP
    rw [recalc_chunk_total] at hsync
    rw [hsync, hsplit, hn]
    push_cast
    ring
  · have h1 := find?_applyQuotaUpdate st.quotas organization_id
      (fun x => update_document_count x (-1)) q hq
    have h2 := find?_applyQuotaUpdate _ organization_id
      (fun x => update_storage_count x (-d.file_size)) _ h1
    have h3 := find?_applyQuotaUpdate _ organization_id
      (fun x => update_chunk_count x
        (-((st.chunks.filter (fun c => c.document_id == document_id)).length : Int)))
      _ h2
    refine ⟨update_chunk_count
      (update_storage_count (update_document_count q (-1)) (-d.file_size))
      (-((st.chunks.filter
        (fun c => c.document_id == document_id)).length : Int)), ?_, ?_⟩
    · rw [delete_document, hget]
      exact h3
    · rw [hn]
      rfl

/-- Witness for `reprocess_document_quota_drift`: a tenant with one
`READY` document holding two chunk rows and a chunk counter in sync;
after reprocess the counter still reads 2 while the stored rows are
gone. -/
theorem reprocess_document_quota_drift_witness :
    (reprocess_document
      { documents := [{ id := 1, organization_id := 1, file_name := "a.txt",
                        file_size := 4, status := .READY, error_message := none,
                        chunk_count := 2, deleted_at := none }],
        chunks := [{ id := 1, document_id := 1, chunk_index := 0,
                     text_content := "alpha", embedding := none,
                     page_number := none, char_start := none, char_end := none },
                   { id := 2, document_id := 1, chunk_index := 1,
                     text_content := "beta", embedding := none,
                     page_number := none, char_start := none, char_end := none }],
        quotas := [(1, { current_chunks := 2 })], next_chunk_id := 3 } 1 1).2.quotas =
      [(1, { current_chunks := 2 })] ∧
    ((reprocess_document
      { documents := [{ id := 1, organization_id := 1, file_name := "a.txt",
                        file_size := 4, status := .READY, error_message := none,
                        chunk_count := 2, deleted_at := none }],
        chunks := [{ id := 1, document_id := 1, chunk_index := 0,
                     text_content := "alpha", embedding := none,
                     page_number := none, char_start := none, char_end := none },
                   { id := 2, document_id := 1, chunk_index := 1,
                     text_content := "beta", embedding := none,
                     page_number := none, char_start := none, char_end := none }],
        quotas := [(1, { current_chunks := 2 })], next_chunk_id := 3 } 1 1).2.chunks.filter
      (fun c => c.document_id == 1)) = [] ∧
    ((1 : Nat), ({ current_chunks := 2 } : OrganizationQuota)).2.current_chunks = 2 := by
  have h := reprocess_document_quota_drift
    { documents := [{ id := 1, organization_id := 1, file_name := "a.txt",
                      file_size := 4, status := .READY, error_message := none,
                      chunk_count := 2, deleted_at := none }],
      chunks := [{ id := 1, document_id := 1, chunk_index := 0,
                   text_content := "alpha", embedding := none,
                   page_number := none, char_start := none, char_end := none },
                 { id := 2, document_id := 1, chunk_index := 1,
                   text_content := "beta", embedding := none,
                   page_number := none, char_start := none, char_end := none }],
      quotas := [(1, { current_chunks := 2 })], next_chunk_id := 3 } 1 1
    { id := 1, organization_id := 1, file_name := "a.txt", file_size := 4,
      status := .READY, error_message := none, chunk_count := 2,
      deleted_at := none }
    { current_chunks := 2 } 2 (by decide) (by decide) (by decide) (by decide)
  exact ⟨h.1, h.2.1, rfl⟩

end RAGfolio